import Mathlib

/-!
# Video upload handler: a shallow embedding

The definitions below embed `handler_upload_video.go`.

* Go strings are Lean `String`s; the byte-level library routines the handler
  calls (`base64.URLEncoding`, `strings.Split`, `filepath.Join`) work on
  `List Char`, which agrees with Go's byte view on the separators `/` and `.`
  (both ASCII).  Bytes are natural numbers below 256.
* The collaborators of the handler (token validation, the database, the
  object store, the external processes, the operating system) are the fields
  of `Env`: each gives the result of one call.
* A run of the handler is a `Run`: the events in the order they happen, the
  temporary files of the run still on disk when the handler is left, and the
  panic that ended it, if any.  Deferred calls run when the handler is left,
  by `return` or by a panic, last deferred first.
* The temporary files of a run are the files `r.ParseMultipartForm` writes
  for the parts of the body that do not fit in memory (line 86), the staged
  file of `os.CreateTemp` (line 138) and the output file of `ffmpeg`.
-/

namespace Tubely

/-! ## Constants and the orientation prefix -/

/-- Line 85: `const maxVideoSize = 10 << 30 // 1GB`. -/
def maxVideoSize : Nat := 10 <<< 30

/-- Lines 159-166: the `if / else if / else` chain that sets `ratioPrefix`
from `aspectRatio`. -/
def ratioPrefix (aspectRatio : String) : String :=
  if aspectRatio == "16:9" then "landscape"
  else if aspectRatio == "9:16" then "portrait"
  else "other"

/-! ## `encoding/base64`: `URLEncoding.WithPadding(NoPadding)` -/

/-- The URL-safe alphabet of `encoding/base64` (`encodeURL`). -/
def encodeURL : List Char :=
  "ABCDEFGHIJKLMNOPQRSTUVWXYZabcdefghijklmnopqrstuvwxyz0123456789-_".toList

/-- The table lookup `enc.encode[i]`; every call site masks `i` with `0x3F`. -/
def encodeAt (i : Nat) : Char := encodeURL.getD i 'A'

/-- `(*Encoding).EncodeToString` without padding: three source bytes give
four characters, a remainder of two bytes gives three characters and a
remainder of one byte gives two. -/
def EncodeToString : List Nat → List Char
  | a :: b :: c :: rest =>
      let val := a <<< 16 ||| b <<< 8 ||| c
      encodeAt (val >>> 18 &&& 0x3F) :: encodeAt (val >>> 12 &&& 0x3F)
        :: encodeAt (val >>> 6 &&& 0x3F) :: encodeAt (val &&& 0x3F)
        :: EncodeToString rest
  | [a, b] =>
      let val := a <<< 16 ||| b <<< 8
      [encodeAt (val >>> 18 &&& 0x3F), encodeAt (val >>> 12 &&& 0x3F),
        encodeAt (val >>> 6 &&& 0x3F)]
  | [a] =>
      let val := a <<< 16
      [encodeAt (val >>> 18 &&& 0x3F), encodeAt (val >>> 12 &&& 0x3F)]
  | [] => []

/-! ## `strings.Split` on a one-character separator -/

/-- `strings.Split(s, sep)` for a separator of one character: the pieces of
`s` between the occurrences of `sep`. -/
def stringsSplit (sep : Char) : List Char → List (List Char)
  | [] => [[]]
  | c :: cs =>
      if c = sep then [] :: stringsSplit sep cs
      else
        match stringsSplit sep cs with
        | [] => [[c]]
        | piece :: pieces => (c :: piece) :: pieces

/-! ## `path/filepath`: `Clean` and `Join` (Unix) -/

/-- The test `r == n || os.IsPathSeparator(path[r])` of `Clean`. -/
def atElementEnd : List Char → Bool
  | [] => true
  | c :: _ => c == '/'

/-- The inner loop of the `..` case: starting from index `w`, step back while
`w > dotdot` and `out[w]` is not a separator. -/
def backtrackIndex (out : List Char) (dotdot : Nat) : Nat → Nat
  | 0 => 0
  | w + 1 =>
      if w + 1 > dotdot ∧ out.getD (w + 1) '/' ≠ '/' then backtrackIndex out dotdot w
      else w + 1

/-- The main loop of `filepath.Clean`: `path` is the unread input
(`path[r:]`), `out` the buffer written so far (`out.w = out.length`), and
`dotdot` the index where `..` must stop.  Every iteration reads at least one
character, so `fuel = path.length` iterations are enough. -/
def cleanLoop (rooted : Bool) : Nat → List Char → List Char → Nat → List Char
  | 0, _, out, _ => out
  | _ + 1, [], out, _ => out
  | fuel + 1, c :: rest, out, dotdot =>
      if c = '/' then
        -- empty path element
        cleanLoop rooted fuel rest out dotdot
      else if c = '.' ∧ atElementEnd rest = true then
        -- . element
        cleanLoop rooted fuel rest out dotdot
      else if c = '.' ∧ rest.head? = some '.' ∧ atElementEnd rest.tail = true then
        -- .. element: remove to last separator
        if out.length > dotdot then
          cleanLoop rooted fuel rest.tail
            (out.take (backtrackIndex out dotdot (out.length - 1))) dotdot
        else if rooted = false then
          let out2 := (if out.length > 0 then out ++ ['/'] else out) ++ ['.', '.']
          cleanLoop rooted fuel rest.tail out2 out2.length
        else
          cleanLoop rooted fuel rest.tail out dotdot
      else
        -- real path element: add slash if needed, then copy the element
        let out1 :=
          if (rooted = true ∧ out.length ≠ 1) ∨ (rooted = false ∧ out.length ≠ 0)
          then out ++ ['/'] else out
        cleanLoop rooted fuel ((c :: rest).dropWhile (fun x => x != '/'))
          (out1 ++ (c :: rest).takeWhile (fun x => x != '/')) dotdot

/-- `filepath.Clean` on Unix (no volume name, `FromSlash` is the identity). -/
def Clean (path : List Char) : List Char :=
  match path with
  | [] => ['.']
  | c :: _ =>
      let rooted := c == '/'
      let out :=
        if rooted then cleanLoop true path.length path.tail ['/'] 1
        else cleanLoop false path.length path [] 0
      if out.length = 0 then ['.'] else out

/-- `filepath.Join`: the elements from the first non-empty one on, joined
with the separator and cleaned; the empty string when all are empty. -/
def Join : List (List Char) → List Char
  | [] => []
  | e :: es =>
      if e = [] then Join es
      else Clean (es.foldl (fun acc x => acc ++ '/' :: x) e)

/-- A run-time panic of the Go program. -/
inductive Panic where
  | indexOutOfRange (index length : Nat)
  | nilDereference
deriving DecidableEq, Repr

/-- The result of a Go call: it returns a value or panics. -/
inductive GoResult (α : Type) where
  | ret (a : α)
  | panic (p : Panic)
deriving Repr

/-- Line 196: `filepath.Join(fmt.Sprintf("%s/%s.%s", ratioPrefix,
fileNamePrefix, strings.Split(videoType, "/")[1]))`.  The index `[1]` is
out of range when `videoType` holds no `/`. -/
def bucketFileKey (ratioPrefix fileNamePrefix videoType : String) : GoResult String :=
  let parts := stringsSplit '/' videoType.toList
  match parts[1]? with
  | none => .panic (.indexOutOfRange 1 parts.length)
  | some ext =>
      .ret (String.mk
        (Join [(ratioPrefix ++ "/" ++ fileNamePrefix ++ "." ++ String.mk ext).toList]))

/-! ## Data model -/

/-- Lines 23-30. -/
structure Stream where
  Width : Int
  Height : Int
  CodedWidth : Int
  CodedHeight : Int
  SampleAspectRatio : String
  DisplayAspectRatio : String
deriving DecidableEq, Repr

/-- Lines 32-34. -/
structure MediaInfo where
  StreamsStream : List Stream
deriving DecidableEq, Repr

/-- The fields of `database.Video` the handlers read and write. -/
structure Video where
  ID : String
  UserID : String
  ThumbnailURL : Option String
  VideoURL : Option String
deriving DecidableEq, Repr

/-- The fields of `apiConfig` the video handler reads. -/
structure apiConfig where
  jwtSecret : String
  s3Bucket : String
  s3CfDistribution : String
deriving DecidableEq, Repr

/-- The part `r.FormFile("video")` returns: the bytes, the part's
`Content-Type` header and the client's file name. -/
structure FormFile where
  content : List Nat
  ContentType : String
  Filename : String
deriving DecidableEq, Repr

/-- What the handler reads of `*http.Request`. -/
structure Request where
  videoID : String
  Authorization : String
  formFile : Except String FormFile

/-- How a run of `ffmpeg` ended: the error of `cmd.Run()` (non-zero exit)
and whether the process left a file at the output path. -/
structure FfmpegRun where
  err : Option String
  wroteOutput : Bool
deriving DecidableEq, Repr

/-- The collaborators of the handler: libraries, external
processes, the operating system, the database and the object store.  Each
field gives the result of one call.

`ParseMultipartForm maxMemory` is the list of `multipart-*` temporary files
that `r.ParseMultipartForm(maxMemory)` writes while it reads the body: file
parts are kept in memory up to `maxMemory` bytes in total and the remainder
is stored on disk.  The handler never removes these files: they are on disk
when it is left (the server deletes them after the handler has returned). -/
structure Env where
  ParseMultipartForm : Nat → List String
  uuidParse : String → Except String String
  GetBearerToken : String → Except String String
  ValidateJWT : String → String → Except String String
  GetVideo : String → Except String Video
  ParseMediaType : String → Except String String
  CreateTemp : Except String String
  ioCopy : String → List Nat → Option String
  ffprobe : String → Except String String
  jsonDecode : String → Except String MediaInfo
  ffmpeg : String → String → FfmpegRun
  openFails : String → Option String
  randRead : Except String (Nat → Nat)
  PutObject : String → String → String → Option String
  UpdateVideo : Video → Option String

/-- What a run of the handler does that is visible outside it, in order. -/
inductive Event where
  | respond (code : Nat) (body : Option Video)
  | createTemp (name : String)
  | ioCopy (name : String)
  | ffprobe (filePath : String)
  | ffmpeg (filePath processedFilePath : String)
  | osOpen (name : String) (err : Option String)
  | randRead
  | putObject (bucket key contentType : String) (err : Option String)
  | updateVideo (video : Video) (err : Option String)
  | osRemove (name : String)
deriving DecidableEq, Repr

/-- The state a run threads through: the events so far and the temporary
files of this run that exist on disk. -/
structure State where
  trace : List Event
  files : List String
deriving DecidableEq, Repr

/-- A finished run: its events, the temporary files of the run still on
disk when the handler is left, and the panic that ended it, if any. -/
structure Run where
  trace : List Event
  files : List String
  panic : Option Panic
deriving DecidableEq, Repr

/-- A deferred call, with its argument evaluated at the `defer` statement. -/
inductive Deferred where
  | videoClose
  | fileClose (name : String)
  | osRemove (name : String)
deriving DecidableEq, Repr

def State.log (s : State) (e : Event) : State :=
  { s with trace := s.trace ++ [e] }

/-- Modelled from the spec: `respondWithError`, a helper defined in another
file of the package, writes a structured error body with the given HTTP status. -/
def respondWithError (s : State) (code : Nat) : State :=
  s.log (.respond code none)

/-- Modelled from the spec: `respondWithJSON`, a helper defined in another
file of the package, writes the payload as structured data with the given HTTP status. -/
def respondWithJSON (s : State) (code : Nat) (payload : Video) : State :=
  s.log (.respond code (some payload))

/-- Running one deferred call: `Close` leaves the files in place,
`os.Remove` deletes the named file. -/
def Deferred.run : Deferred → State → State
  | .videoClose, s => s
  | .fileClose _, s => s
  | .osRemove name, s =>
      { trace := s.trace ++ [.osRemove name], files := s.files.filter (fun f => f != name) }

/-- Leaving the handler, by `return` or by a panic: the deferred calls run,
last deferred first. -/
def leave (defers : List Deferred) (s : State) (panic : Option Panic) : Run :=
  let s1 := defers.foldl (fun acc d => d.run acc) s
  { trace := s1.trace, files := s1.files, panic := panic }

/-! ## The functions of `handler_upload_video.go` -/

/-- Lines 36-45. -/
def unmarshalJSON (env : Env) (buf : String) : MediaInfo × Option String :=
  match env.jsonDecode buf with
  | .error err => ({ StreamsStream := [] }, some ("failed to unmarshal JSON: " ++ err))
  | .ok mediaInfo => (mediaInfo, none)

/-- Lines 47-66.  `mediaInfo.StreamsStream[0]` panics on an empty list. -/
def getVideoAspectRatio (env : Env) (filePath : String) : GoResult (String × Option String) :=
  match env.ffprobe filePath with
  | .error err => .ret ("", some err)
  | .ok buffer =>
      match unmarshalJSON env buffer with
      | (_, some err) => .ret ("", some err)
      | (mediaInfo, none) =>
          match mediaInfo.StreamsStream[0]? with
          | none => .panic (.indexOutOfRange 0 mediaInfo.StreamsStream.length)
          | some stream => .ret (stream.DisplayAspectRatio, none)

/-- Lines 68-82.  The second component is the set of temporary files after
`ffmpeg` has run. -/
def processVideoForFastStart (env : Env) (filePath : String) (files : List String) :
    (String × Option String) × List String :=
  let processedFilePath := filePath ++ ".processing"
  let run := env.ffmpeg filePath processedFilePath
  let files1 := if run.wroteOutput then processedFilePath :: files else files
  match run.err with
  | some err => (("", some err), files1)
  | none => ((processedFilePath, none), files1)

/-- `os.Open(name)`: the empty name and a name with no file fail; a file
that exists opens unless the environment reports an error. -/
def osOpen (env : Env) (name : String) (files : List String) : Option String :=
  if name = "" ∨ name ∉ files then some "no such file or directory"
  else env.openFails name

/-- Lines 184-222, entered with the processed file open. -/
def uploadAndCommit (cfg : apiConfig) (env : Env) (videoMetadata : Video)
    (videoType ratioPrefix : String) (defers : List Deferred) (s : State) : Run :=
  let sliceLength := 32
  let s := s.log .randRead
  match env.randRead with
  | .error _ => leave defers (respondWithError s 500) none
  | .ok source =>
      let randomBytes := (List.range sliceLength).map (fun i => source i % 256)
      let fileNamePrefix := String.mk (EncodeToString randomBytes)
      match bucketFileKey ratioPrefix fileNamePrefix videoType with
      | .panic p => leave defers s (some p)
      | .ret key =>
          let putErr := env.PutObject cfg.s3Bucket key videoType
          let s := s.log (.putObject cfg.s3Bucket key videoType putErr)
          match putErr with
          | some _ => leave defers (respondWithError s 500) none
          | none =>
              let videoAwsUrl := "https://" ++ cfg.s3CfDistribution ++ ".cloudfront.net/" ++ key
              let videoMetadata := { videoMetadata with VideoURL := some videoAwsUrl }
              let updErr := env.UpdateVideo videoMetadata
              let s := s.log (.updateVideo videoMetadata updErr)
              match updErr with
              | some _ => leave defers (respondWithError s 500) none
              | none => leave defers (respondWithJSON s 200 videoMetadata) none

/-- Lines 156-158, 172-174 and 177-179: `if err != nil { respondWithError(w,
http.StatusInternalServerError, ...) }` with no `return` in the block, so
the run goes on after the response. -/
def respondAndGoOn (s : State) (err : Option String) : State :=
  match err with
  | some _ => respondWithError s 500
  | none => s

/-- Lines 144-182, entered with the temporary file created: copy, probe,
classify, remux and open the processed file.  When `os.Open` fails,
`processedVideo` is nil and `processedVideo.Name()` at line 181 panics. -/
def stageAndProcess (cfg : apiConfig) (env : Env) (videoMetadata : Video) (video : FormFile)
    (videoType tempName : String) (s : State) : Run :=
  let defers := [Deferred.fileClose tempName, .osRemove tempName, .videoClose]
  let s := s.log (.ioCopy tempName)
  match env.ioCopy tempName video.content with
  | some _ => leave defers (respondWithError s 500) none
  | none =>
      let s := s.log (.ffprobe tempName)
      match getVideoAspectRatio env tempName with
      | .panic p => leave defers s (some p)
      | .ret (aspectRatio, err) =>
          let s := respondAndGoOn s err
          let ratioPrefix := ratioPrefix aspectRatio
          let s := s.log (.ffmpeg tempName (tempName ++ ".processing"))
          match processVideoForFastStart env tempName s.files with
          | ((processedVideoFilePath, err), files) =>
              let s := respondAndGoOn { s with files := files } err
              let openErr := osOpen env processedVideoFilePath s.files
              let s := respondAndGoOn (s.log (.osOpen processedVideoFilePath openErr)) openErr
              match openErr with
              | some _ => leave defers s (some .nilDereference)
              | none =>
                  uploadAndCommit cfg env videoMetadata videoType ratioPrefix
                    (.fileClose processedVideoFilePath :: .osRemove processedVideoFilePath :: defers) s

/-- Lines 84-142; lines 144-222 are `stageAndProcess` and `uploadAndCommit`.
Line 86 parses the form before any check and its result is dropped: the
files it writes are on disk from then on. -/
def handlerUploadVideo (cfg : apiConfig) (env : Env) (r : Request) : Run :=
  let s : State := { trace := [], files := env.ParseMultipartForm maxVideoSize }
  match env.uuidParse r.videoID with
  | .error _ => leave [] (respondWithError s 400) none
  | .ok videoID =>
  match env.GetBearerToken r.Authorization with
  | .error _ => leave [] (respondWithError s 401) none
  | .ok token =>
  match env.ValidateJWT token cfg.jwtSecret with
  | .error _ => leave [] (respondWithError s 401) none
  | .ok userID =>
  match env.GetVideo videoID with
  | .error _ => leave [] (respondWithError s 400) none
  | .ok videoMetadata =>
  if videoMetadata.UserID != userID then leave [] (respondWithError s 401) none
  else
  match r.formFile with
  | .error _ => leave [] (respondWithError s 400) none
  | .ok video =>
  match env.ParseMediaType video.ContentType with
  | .error _ => leave [.videoClose] (respondWithError s 400) none
  | .ok videoType =>
  if videoType != "video/mp4" then leave [.videoClose] (respondWithError s 400) none
  else
  match env.CreateTemp with
  | .error _ => leave [.videoClose] (respondWithError s 500) none
  | .ok tempName =>
      let s := { s.log (.createTemp tempName) with files := tempName :: s.files }
      stageAndProcess cfg env videoMetadata video videoType tempName s

/-! ## Reading a run -/

def Event.isUpdateVideo : Event → Bool
  | .updateVideo _ _ => true
  | _ => false

def Event.isPutObject : Event → Bool
  | .putObject _ _ _ _ => true
  | _ => false

def Event.isCreateTemp : Event → Bool
  | .createTemp _ => true
  | _ => false

def Event.isRespond : Event → Bool
  | .respond _ _ => true
  | _ => false

/-- The events the deferred calls add when the handler is left. -/
def removals : List Deferred → List Event
  | [] => []
  | .osRemove name :: ds => .osRemove name :: removals ds
  | _ :: ds => removals ds

/-- The files the deferred calls leave on disk. -/
def remaining : List Deferred → List String → List String
  | [], files => files
  | .osRemove name :: ds, files => remaining ds (files.filter (fun f => f != name))
  | _ :: ds, files => remaining ds files

/-- The response `respondAndGoOn` adds. -/
def errorResponse : Option String → List Event
  | some _ => [.respond 500 none]
  | none => []

/-- No event of the trace is a `PutObject` or an `UpdateVideo` call. -/
def NoCommit (tr : List Event) : Prop :=
  ∀ e ∈ tr, e.isUpdateVideo = false ∧ e.isPutObject = false

/-- `UpdateVideo` is called at most once and only after a `PutObject` that
returned no error; after a `PutObject` error the run has no `UpdateVideo`,
ends by `return` and responds 500. -/
def CommitOrder (run : Run) : Prop :=
  run.trace.countP Event.isUpdateVideo ≤ 1 ∧
  (∀ v e, Event.updateVideo v e ∈ run.trace →
    ∃ b k ct, Event.putObject b k ct none ∈ run.trace.takeWhile (fun x => !x.isUpdateVideo)) ∧
  (∀ b k ct err, Event.putObject b k ct (some err) ∈ run.trace →
    (∀ v e, Event.updateVideo v e ∉ run.trace) ∧ run.panic = none ∧
    Event.respond 500 none ∈ run.trace.dropWhile (fun x => !x.isPutObject))

/-- The run passes every check of lines 88-142: the ids parse, the token is
valid, the record is fetched and belongs to the caller, the form holds the
part, its media type parses to `video/mp4`, and the temporary file
`tempName` is created. -/
def ReachesStaging (cfg : apiConfig) (env : Env) (r : Request) (videoMetadata : Video)
    (video : FormFile) (tempName : String) : Prop :=
  ∃ videoID token,
    env.uuidParse r.videoID = .ok videoID ∧
    env.GetBearerToken r.Authorization = .ok token ∧
    env.ValidateJWT token cfg.jwtSecret = .ok videoMetadata.UserID ∧
    env.GetVideo videoID = .ok videoMetadata ∧
    r.formFile = .ok video ∧
    env.ParseMediaType video.ContentType = .ok "video/mp4" ∧
    env.CreateTemp = .ok tempName

/-! ## A concrete environment -/

def exampleConfig : apiConfig :=
  { jwtSecret := "secret", s3Bucket := "tubely-bucket", s3CfDistribution := "d111" }

def exampleRequest : Request :=
  { videoID := "5e0c0a6d-9d4f-4a5b-8d55-0a1f0c2b3d4e",
    Authorization := "Bearer token",
    formFile := .ok { content := [0, 0, 0, 32], ContentType := "video/mp4", Filename := "clip.mp4" } }

def exampleVideo : Video :=
  { ID := "5e0c0a6d-9d4f-4a5b-8d55-0a1f0c2b3d4e", UserID := "user-1",
    ThumbnailURL := none, VideoURL := none }

def exampleStream : Stream :=
  { Width := 1920, Height := 1080, CodedWidth := 1920, CodedHeight := 1088,
    SampleAspectRatio := "1:1", DisplayAspectRatio := "16:9" }

/-- Every collaborator succeeds: a 16:9 upload by the owner of the record,
with a body that fits in memory. -/
def happyEnv : Env :=
  { ParseMultipartForm := fun _ => []
    uuidParse := fun s => .ok s
    GetBearerToken := fun _ => .ok "token"
    ValidateJWT := fun _ _ => .ok "user-1"
    GetVideo := fun _ => .ok exampleVideo
    ParseMediaType := fun h => .ok h
    CreateTemp := .ok "/tmp/tubely-upload.mp4123"
    ioCopy := fun _ _ => none
    ffprobe := fun _ => .ok "probe output"
    jsonDecode := fun _ => .ok { StreamsStream := [exampleStream] }
    ffmpeg := fun _ _ => { err := none, wroteOutput := true }
    openFails := fun _ => none
    randRead := .ok (fun i => i)
    PutObject := fun _ _ _ => none
    UpdateVideo := fun _ => none }

/-- The same request with a part whose media type is `image/png`. -/
def pngRequest : Request :=
  { exampleRequest with
    formFile := .ok { content := [137, 80, 78, 71], ContentType := "image/png", Filename := "a.png" } }

/-- The record belongs to another user. -/
def otherOwnerEnv : Env :=
  { happyEnv with GetVideo := fun _ => .ok { exampleVideo with UserID := "user-2" } }

/-- The form holds, beside the `video` part, a file part of 12 GiB: parsed
with less memory than that, it is written to a `multipart-*` temporary file. -/
def spillEnv : Env :=
  { happyEnv with
    ParseMultipartForm := fun maxMemory =>
      if maxMemory < 12 * 2 ^ 30 then ["/tmp/multipart-1046530816"] else [] }

/-- The body of `spillEnv` and the record of `otherOwnerEnv`. -/
def spillOtherOwnerEnv : Env :=
  { spillEnv with GetVideo := fun _ => .ok { exampleVideo with UserID := "user-2" } }

/-- The probe `ffprobe` exits non-zero. -/
def probeFailsEnv : Env := { happyEnv with ffprobe := fun _ => .error "exit status 1" }

/-- The probe prints a document with no stream. -/
def noStreamEnv : Env :=
  { happyEnv with
    ffprobe := fun _ => .ok "\x7b\"streams\": []\x7d"
    jsonDecode := fun _ => .ok { StreamsStream := [] } }

/-- The remux `ffmpeg` exits non-zero after writing part of its output. -/
def remuxFailsEnv : Env :=
  { happyEnv with ffmpeg := fun _ _ => { err := some "exit status 1", wroteOutput := true } }

/-- The object store refuses the upload. -/
def putFailsEnv : Env := { happyEnv with PutObject := fun _ _ _ => some "AccessDenied" }

/-! ## Lemmas: the key encoding and the path cleaning -/

theorem encodeURL_chars : ∀ c ∈ encodeURL,
    c ≠ '/' ∧ c ≠ '.' ∧ (c.isAlphanum = true ∨ c = '-' ∨ c = '_') := by
  decide

theorem encodeAt_lt : ∀ i < 64, encodeAt i ∈ encodeURL := by
  decide

theorem encodeAt_masked (v : Nat) : encodeAt (v &&& 0x3F) ∈ encodeURL :=
  encodeAt_lt _ (Nat.lt_succ_of_le Nat.and_le_right)

theorem EncodeToString_mem (l : List Nat) : ∀ c ∈ EncodeToString l, c ∈ encodeURL := by
  induction l using EncodeToString.induct with
  | case1 a b c rest ih =>
      intro x hx
      simp only [EncodeToString, List.mem_cons] at hx
      rcases hx with h | h | h | h | h
      · exact h ▸ encodeAt_masked _
      · exact h ▸ encodeAt_masked _
      · exact h ▸ encodeAt_masked _
      · exact h ▸ encodeAt_masked _
      · exact ih x h
  | case2 a b =>
      intro x hx
      simp only [EncodeToString, List.mem_cons, List.mem_singleton, List.not_mem_nil, or_false] at hx
      rcases hx with h | h | h
      · exact h ▸ encodeAt_masked _
      · exact h ▸ encodeAt_masked _
      · exact h ▸ encodeAt_masked _
  | case3 a =>
      intro x hx
      simp only [EncodeToString, List.mem_cons, List.mem_singleton, List.not_mem_nil, or_false] at hx
      rcases hx with h | h
      · exact h ▸ encodeAt_masked _
      · exact h ▸ encodeAt_masked _
  | case4 => intro x hx; simp [EncodeToString] at hx

theorem EncodeToString_length (l : List Nat) :
    (EncodeToString l).length = (4 * l.length + 2) / 3 := by
  induction l using EncodeToString.induct with
  | case1 a b c rest ih =>
      simp only [EncodeToString, List.length_cons, ih]
      omega
  | case2 a b => simp [EncodeToString]
  | case3 a => simp [EncodeToString]
  | case4 => simp [EncodeToString]


theorem takeWhile_element (xs ys : List Char) (h : ∀ c ∈ xs, c ≠ '/') :
    (xs ++ '/' :: ys).takeWhile (fun x => x != '/') = xs := by
  induction xs with
  | nil => simp
  | cons x xs ih =>
      have hx : x ≠ '/' := h x (List.mem_cons_self _ _)
      have := ih (fun c hc => h c (List.mem_cons_of_mem _ hc))
      simp [List.takeWhile_cons, hx, this]

theorem dropWhile_element (xs ys : List Char) (h : ∀ c ∈ xs, c ≠ '/') :
    (xs ++ '/' :: ys).dropWhile (fun x => x != '/') = '/' :: ys := by
  induction xs with
  | nil => simp
  | cons x xs ih =>
      have hx : x ≠ '/' := h x (List.mem_cons_self _ _)
      have := ih (fun c hc => h c (List.mem_cons_of_mem _ hc))
      simp [List.dropWhile_cons, hx, this]

theorem takeWhile_last_element (xs : List Char) (h : ∀ c ∈ xs, c ≠ '/') :
    xs.takeWhile (fun x => x != '/') = xs := by
  induction xs with
  | nil => simp
  | cons x xs ih =>
      have hx : x ≠ '/' := h x (List.mem_cons_self _ _)
      have := ih (fun c hc => h c (List.mem_cons_of_mem _ hc))
      simp [List.takeWhile_cons, hx, this]

theorem dropWhile_last_element (xs : List Char) (h : ∀ c ∈ xs, c ≠ '/') :
    xs.dropWhile (fun x => x != '/') = [] := by
  induction xs with
  | nil => simp
  | cons x xs ih =>
      have hx : x ≠ '/' := h x (List.mem_cons_self _ _)
      have := ih (fun c hc => h c (List.mem_cons_of_mem _ hc))
      simp [List.dropWhile_cons, hx, this]

/-- `Clean`'s loop copies a relative path of two plain elements unchanged. -/
theorem cleanLoop_two_elements (fuel : Nat) (c1 c2 : Char) (e1 e2 : List Char)
    (h1 : ∀ c ∈ c1 :: e1, c ≠ '/') (h2 : ∀ c ∈ c2 :: e2, c ≠ '/')
    (d1 : c1 ≠ '.') (d2 : c2 ≠ '.') :
    cleanLoop false (fuel + 3) (c1 :: e1 ++ '/' :: c2 :: e2) [] 0
      = c1 :: e1 ++ '/' :: c2 :: e2 := by
  have s1 : c1 ≠ '/' := h1 c1 (List.mem_cons_self _ _)
  have s2 : c2 ≠ '/' := h2 c2 (List.mem_cons_self _ _)
  have t1 := takeWhile_element (c1 :: e1) (c2 :: e2) h1
  have t2 := dropWhile_element (c1 :: e1) (c2 :: e2) h1
  have t3 := takeWhile_last_element (c2 :: e2) h2
  have t4 := dropWhile_last_element (c2 :: e2) h2
  rw [List.cons_append] at t1 t2
  rw [List.cons_append, cleanLoop]
  simp only [s1, d1, false_and, if_false, t1, t2]
  rw [cleanLoop]
  simp only [if_true]
  rw [cleanLoop]
  simp only [s2, d2, false_and, if_false, t3, t4]
  cases fuel <;> simp [cleanLoop]

theorem Clean_two_elements (c1 c2 : Char) (e1 e2 : List Char)
    (h1 : ∀ c ∈ c1 :: e1, c ≠ '/') (h2 : ∀ c ∈ c2 :: e2, c ≠ '/')
    (d1 : c1 ≠ '.') (d2 : c2 ≠ '.') :
    Clean (c1 :: e1 ++ '/' :: c2 :: e2) = c1 :: e1 ++ '/' :: c2 :: e2 := by
  have s1 : c1 ≠ '/' := h1 c1 (List.mem_cons_self _ _)
  have hlen : (c1 :: e1 ++ '/' :: c2 :: e2).length = (e1.length + e2.length) + 3 := by
    simp; omega
  rw [List.cons_append] at hlen ⊢
  unfold Clean
  simp only [hlen, beq_iff_eq, s1, if_false]
  have := cleanLoop_two_elements (e1.length + e2.length) c1 c2 e1 e2 h1 h2 d1 d2
  rw [List.cons_append] at this
  rw [this]
  simp

theorem String_mk_toList (l : List Char) : (String.mk l).toList = l := rfl

theorem ratioPrefix_values (s : String) :
    ratioPrefix s = "landscape" ∨ ratioPrefix s = "portrait" ∨ ratioPrefix s = "other" := by
  unfold ratioPrefix
  split
  · exact Or.inl rfl
  · split
    · exact Or.inr (Or.inl rfl)
    · exact Or.inr (Or.inr rfl)

/-- For `video/mp4` the cleaned key is the formatted string itself. -/
theorem bucketFileKey_mp4 (o : String) (b : List Nat)
    (ho : o = "landscape" ∨ o = "portrait" ∨ o = "other") (hb : b.length = 32) :
    bucketFileKey o (String.mk (EncodeToString b)) "video/mp4"
      = .ret (o ++ "/" ++ String.mk (EncodeToString b) ++ ".mp4") := by
  have hlen : (EncodeToString b).length = 43 := by
    rw [EncodeToString_length, hb]
  have hmem := EncodeToString_mem b
  have hsafe : ∀ c ∈ EncodeToString b, c ≠ '/' ∧ c ≠ '.' := fun c hc =>
    ⟨(encodeURL_chars c (hmem c hc)).1, (encodeURL_chars c (hmem c hc)).2.1⟩
  obtain ⟨c2, e2, henc⟩ : ∃ c2 e2, EncodeToString b = c2 :: e2 := by
    cases h : EncodeToString b with
    | nil => rw [h] at hlen; simp at hlen
    | cons c e => exact ⟨c, e, rfl⟩
  have hc2 : c2 ≠ '/' ∧ c2 ≠ '.' := hsafe c2 (by rw [henc]; exact List.mem_cons_self _ _)
  have he2 : ∀ c ∈ e2, c ≠ '/' := fun c hc =>
    (hsafe c (by rw [henc]; exact List.mem_cons_of_mem _ hc)).1
  have htail : ∀ c ∈ c2 :: (e2 ++ ".mp4".toList), c ≠ '/' := by
    intro c hc
    simp only [List.mem_cons, List.mem_append] at hc
    rcases hc with h | h | h
    · exact h ▸ hc2.1
    · exact he2 c h
    · revert c; decide
  have hsplit : (stringsSplit '/' "video/mp4".toList)[1]? = some "mp4".toList := by decide
  unfold bucketFileKey
  simp only [hsplit]
  congr 1
  apply String.ext
  simp only [String.data_append, String_mk_toList, String.toList, Join, henc]
  rcases ho with h | h | h <;> subst h
  · have := Clean_two_elements 'l' c2 "andscape".toList (e2 ++ ".mp4".toList)
      (by decide) htail (by decide) hc2.2
    simpa using this
  · have := Clean_two_elements 'p' c2 "ortrait".toList (e2 ++ ".mp4".toList)
      (by decide) htail (by decide) hc2.2
    simpa using this
  · have := Clean_two_elements 'o' c2 "ther".toList (e2 ++ ".mp4".toList)
      (by decide) htail (by decide) hc2.2
    simpa using this

theorem key_one_separator (o : String) (b : List Nat)
    (ho : o = "landscape" ∨ o = "portrait" ∨ o = "other") :
    (o ++ "/" ++ String.mk (EncodeToString b) ++ ".mp4").toList.count '/' = 1 := by
  have hz : (EncodeToString b).count '/' = 0 := by
    rw [List.count_eq_zero]
    intro hin
    exact (encodeURL_chars _ (EncodeToString_mem b _ hin)).1 rfl
  simp only [String.toList, String.data_append, List.count_append, hz]
  rcases ho with h | h | h <;> subst h <;> decide

/-! ## Lemmas: the trace of a run -/

@[simp] theorem log_trace (s : State) (e : Event) : (s.log e).trace = s.trace ++ [e] := rfl

@[simp] theorem log_files (s : State) (e : Event) : (s.log e).files = s.files := rfl

@[simp] theorem respondWithError_trace (s : State) (c : Nat) :
    (respondWithError s c).trace = s.trace ++ [.respond c none] := rfl

@[simp] theorem respondWithError_files (s : State) (c : Nat) :
    (respondWithError s c).files = s.files := rfl

@[simp] theorem respondWithJSON_trace (s : State) (c : Nat) (v : Video) :
    (respondWithJSON s c v).trace = s.trace ++ [.respond c (some v)] := rfl

@[simp] theorem respondWithJSON_files (s : State) (c : Nat) (v : Video) :
    (respondWithJSON s c v).files = s.files := rfl

@[simp] theorem respondAndGoOn_trace (s : State) (err : Option String) :
    (respondAndGoOn s err).trace = s.trace ++ errorResponse err := by
  cases err <;> simp [respondAndGoOn, errorResponse]

@[simp] theorem respondAndGoOn_files (s : State) (err : Option String) :
    (respondAndGoOn s err).files = s.files := by
  cases err <;> simp [respondAndGoOn]

theorem foldl_run_trace (defers : List Deferred) (s : State) :
    (defers.foldl (fun acc d => d.run acc) s).trace = s.trace ++ removals defers := by
  induction defers generalizing s with
  | nil => simp [removals]
  | cons d ds ih =>
      rw [List.foldl_cons, ih]
      cases d <;> simp [Deferred.run, removals]

theorem foldl_run_files (defers : List Deferred) (s : State) :
    (defers.foldl (fun acc d => d.run acc) s).files = remaining defers s.files := by
  induction defers generalizing s with
  | nil => simp [remaining]
  | cons d ds ih =>
      rw [List.foldl_cons, ih]
      cases d <;> simp [Deferred.run, remaining]

@[simp] theorem leave_trace (defers : List Deferred) (s : State) (p : Option Panic) :
    (leave defers s p).trace = s.trace ++ removals defers := by
  simp [leave, foldl_run_trace]

@[simp] theorem leave_files (defers : List Deferred) (s : State) (p : Option Panic) :
    (leave defers s p).files = remaining defers s.files := by
  simp [leave, foldl_run_files]

@[simp] theorem leave_panic (defers : List Deferred) (s : State) (p : Option Panic) :
    (leave defers s p).panic = p := rfl

theorem removals_isRemove (ds : List Deferred) :
    ∀ e ∈ removals ds, ∃ n, e = Event.osRemove n := by
  induction ds with
  | nil => intro e he; simp [removals] at he
  | cons d ds ih =>
      intro e he
      cases d with
      | videoClose => exact ih e (by simpa [removals] using he)
      | fileClose n => exact ih e (by simpa [removals] using he)
      | osRemove n =>
          simp only [removals, List.mem_cons] at he
          rcases he with h | h
          · exact ⟨n, h⟩
          · exact ih e h

theorem NoCommit_nil : NoCommit [] := by
  intro e he; cases he

theorem NoCommit_append {a b : List Event} : NoCommit (a ++ b) ↔ NoCommit a ∧ NoCommit b := by
  unfold NoCommit
  simp only [List.mem_append]
  constructor
  · intro h; exact ⟨fun e he => h e (Or.inl he), fun e he => h e (Or.inr he)⟩
  · rintro ⟨h1, h2⟩ e (he | he)
    · exact h1 e he
    · exact h2 e he

theorem NoCommit_cons {e : Event} {a : List Event} :
    NoCommit (e :: a) ↔ (e.isUpdateVideo = false ∧ e.isPutObject = false) ∧ NoCommit a := by
  unfold NoCommit
  simp only [List.mem_cons, forall_eq_or_imp]

theorem NoCommit_removals (ds : List Deferred) : NoCommit (removals ds) := by
  intro e he
  obtain ⟨n, rfl⟩ := removals_isRemove ds e he
  exact ⟨rfl, rfl⟩

theorem NoCommit_errorResponse (err : Option String) : NoCommit (errorResponse err) := by
  cases err <;>
    simp [errorResponse, NoCommit_cons, NoCommit_nil, Event.isUpdateVideo, Event.isPutObject]

theorem CommitOrder_of_NoCommit (run : Run) (h : NoCommit run.trace) : CommitOrder run := by
  refine ⟨?_, ?_, ?_⟩
  · have : List.countP Event.isUpdateVideo run.trace = 0 := by
      rw [List.countP_eq_zero]; intro e he; simp [(h e he).1]
    omega
  · intro v e he
    have := (h _ he).1
    simp [Event.isUpdateVideo] at this
  · intro b k ct err he
    have := (h _ he).2
    simp [Event.isPutObject] at this

theorem uploadAndCommit_order (cfg : apiConfig) (env : Env) (vm : Video) (vt rp : String)
    (defers : List Deferred) (s : State) (hs : NoCommit s.trace) :
    CommitOrder (uploadAndCommit cfg env vm vt rp defers s) := by
  have hu : ∀ e ∈ s.trace, (!e.isUpdateVideo) = true := fun e he => by simp [(hs e he).1]
  have hp : ∀ e ∈ s.trace, (!e.isPutObject) = true := fun e he => by simp [(hs e he).2]
  have hc : List.countP Event.isUpdateVideo s.trace = 0 := by
    rw [List.countP_eq_zero]; intro e he; simp [(hs e he).1]
  have hr := removals_isRemove defers
  have hrc : List.countP Event.isUpdateVideo (removals defers) = 0 := by
    rw [List.countP_eq_zero]; intro e he
    obtain ⟨n, rfl⟩ := hr e he
    simp [Event.isUpdateVideo]
  have hsu : ∀ v e, Event.updateVideo v e ∉ s.trace := fun v e h => by
    have := (hs _ h).1; simp [Event.isUpdateVideo] at this
  have hsp : ∀ b k ct e, Event.putObject b k ct e ∉ s.trace := fun b k ct e h => by
    have := (hs _ h).2; simp [Event.isPutObject] at this
  have hru : ∀ v e, Event.updateVideo v e ∉ removals defers := fun v e h => by
    obtain ⟨n, hn⟩ := hr _ h; cases hn
  have hrp : ∀ b k ct e, Event.putObject b k ct e ∉ removals defers := fun b k ct e h => by
    obtain ⟨n, hn⟩ := hr _ h; cases hn
  unfold uploadAndCommit CommitOrder
  dsimp only
  repeat' split
  all_goals simp only [leave_trace, leave_panic, log_trace, respondWithError_trace,
    respondWithJSON_trace, List.append_assoc, List.takeWhile_append_of_pos hu,
    List.dropWhile_append_of_pos hp, List.countP_append, hc, hrc, List.mem_append, *]
  all_goals simp [List.countP_cons, Event.isUpdateVideo, Event.isPutObject, hsu, hsp, hru, hrp,
    List.takeWhile_cons, List.dropWhile_cons]

theorem stageAndProcess_order (cfg : apiConfig) (env : Env) (vm : Video) (video : FormFile)
    (vt t : String) (s : State) (hs : NoCommit s.trace) :
    CommitOrder (stageAndProcess cfg env vm video vt t s) := by
  unfold stageAndProcess
  dsimp only
  repeat' split
  all_goals first
    | (apply uploadAndCommit_order
       simp [NoCommit_append, NoCommit_cons, NoCommit_nil, NoCommit_errorResponse, hs,
         Event.isUpdateVideo, Event.isPutObject])
    | (apply CommitOrder_of_NoCommit
       simp [NoCommit_append, NoCommit_cons, NoCommit_nil, NoCommit_removals,
         NoCommit_errorResponse, hs, Event.isUpdateVideo, Event.isPutObject])

theorem handlerUploadVideo_order (cfg : apiConfig) (env : Env) (r : Request) :
    CommitOrder (handlerUploadVideo cfg env r) := by
  unfold handlerUploadVideo
  dsimp only
  repeat' split
  all_goals first
    | (apply stageAndProcess_order
       simp [NoCommit_cons, NoCommit_nil, Event.isUpdateVideo, Event.isPutObject])
    | (apply CommitOrder_of_NoCommit
       simp [NoCommit_append, NoCommit_cons, NoCommit_nil, NoCommit_removals,
         Event.isUpdateVideo, Event.isPutObject])

/-! ## Lemmas: the checks before staging -/

theorem handlerUploadVideo_staged (cfg : apiConfig) (env : Env) (r : Request) (vm : Video)
    (video : FormFile) (t : String) (h : ReachesStaging cfg env r vm video t) :
    handlerUploadVideo cfg env r
      = stageAndProcess cfg env vm video "video/mp4" t
          { trace := [.createTemp t], files := t :: env.ParseMultipartForm maxVideoSize } := by
  obtain ⟨videoID, token, h1, h2, h3, h4, h5, h6, h7⟩ := h
  unfold handlerUploadVideo
  simp [h1, h2, h3, h4, h5, h6, h7, State.log]

/-- A run either is rejected with one error response, the files of line 86
being the only temporary files, or passes every check and goes on to
staging. -/
theorem handlerUploadVideo_cases (cfg : apiConfig) (env : Env) (r : Request) :
    (∃ code, (code = 400 ∨ code = 401 ∨ code = 500) ∧
      handlerUploadVideo cfg env r =
        { trace := [.respond code none], files := env.ParseMultipartForm maxVideoSize,
          panic := none }) ∨
    (∃ vm video t, ReachesStaging cfg env r vm video t ∧
      handlerUploadVideo cfg env r
        = stageAndProcess cfg env vm video "video/mp4" t
            { trace := [.createTemp t], files := t :: env.ParseMultipartForm maxVideoSize }) := by
  unfold handlerUploadVideo
  dsimp only
  repeat' split
  all_goals first
    | (left
       simp [leave, respondWithError, State.log, Deferred.run]
       done)
    | skip
  rename_i _ videoID h1 _ token h2 _ userID h3 _ vm h4 hu _ video h5 _ vt h6 hvt _ t ht
  have hvt2 : vt = "video/mp4" := by simpa using hvt
  have hu2 : vm.UserID = userID := by simpa using hu
  subst hvt2 hu2
  right
  exact ⟨vm, video, t, ⟨videoID, token, h1, h2, h3, h4, h5, h6, ht⟩, rfl⟩

/-- Every run that creates the temporary file has passed all the checks. -/
theorem createTemp_reaches (cfg : apiConfig) (env : Env) (r : Request) (name : String)
    (h : Event.createTemp name ∈ (handlerUploadVideo cfg env r).trace) :
    ∃ vm video t, ReachesStaging cfg env r vm video t := by
  rcases handlerUploadVideo_cases cfg env r with ⟨code, _, hrun⟩ | ⟨vm, video, t, hst, _⟩
  · rw [hrun] at h
    simp at h
  · exact ⟨vm, video, t, hst⟩

/-! ## Lemmas: staging, probing and remuxing -/

theorem append_processing_ne (t : String) : t ++ ".processing" ≠ t := by
  intro h
  have := congrArg String.length h
  simp [String.length_append] at this
  revert this
  decide

theorem append_processing_ne_empty (t : String) : t ++ ".processing" ≠ "" := by
  intro h
  have h1 := congrArg String.length h
  have h2 : ".processing".length = 11 := by decide
  have h3 : "".length = 0 := by decide
  rw [String.length_append, h2, h3] at h1
  omega

theorem stageAndProcess_remux_error (cfg : apiConfig) (env : Env) (vm : Video) (video : FormFile)
    (vt t : String) (s : State) (ar : String) (perr : Option String) (e : String)
    (hcopy : env.ioCopy t video.content = none)
    (hprobe : getVideoAspectRatio env t = .ret (ar, perr))
    (hff : (env.ffmpeg t (t ++ ".processing")).err = some e) :
    stageAndProcess cfg env vm video vt t s =
      { trace := s.trace ++ [.ioCopy t, .ffprobe t] ++ errorResponse perr ++
          [.ffmpeg t (t ++ ".processing"), .respond 500 none,
            .osOpen "" (some "no such file or directory"), .respond 500 none, .osRemove t]
        files := (if (env.ffmpeg t (t ++ ".processing")).wroteOutput
            then (t ++ ".processing") :: s.files else s.files).filter (fun f => f != t)
        panic := some .nilDereference } := by
  unfold stageAndProcess
  simp [hcopy, hprobe, processVideoForFastStart, hff, osOpen, leave, Deferred.run, State.log,
    respondAndGoOn, respondWithError, errorResponse]
  cases perr <;> simp

theorem uploadAndCommit_extends (cfg : apiConfig) (env : Env) (vm : Video) (vt rp : String)
    (defers : List Deferred) (s : State) :
    ∃ tail, (uploadAndCommit cfg env vm vt rp defers s).trace = s.trace ++ tail := by
  unfold uploadAndCommit
  dsimp only
  repeat' split
  all_goals simp only [leave_trace, log_trace, respondWithError_trace, respondWithJSON_trace,
    List.append_assoc]
  all_goals exact ⟨_, rfl⟩

theorem uploadAndCommit_files (cfg : apiConfig) (env : Env) (vm : Video) (vt rp : String)
    (defers : List Deferred) (s : State) :
    (uploadAndCommit cfg env vm vt rp defers s).files = remaining defers s.files := by
  unfold uploadAndCommit
  dsimp only
  repeat' split
  all_goals simp

theorem uploadAndCommit_panic (cfg : apiConfig) (env : Env) (vm : Video) (rp : String)
    (defers : List Deferred) (s : State) (ar : String)
    (hrp : rp = ratioPrefix ar) :
    (uploadAndCommit cfg env vm "video/mp4" rp defers s).panic = none := by
  subst hrp
  unfold uploadAndCommit
  dsimp only
  split
  · simp
  · rename_i src _
    rw [bucketFileKey_mp4 _ _ (ratioPrefix_values ar) (by simp)]
    dsimp only
    repeat' split
    all_goals simp

theorem uploadAndCommit_key (cfg : apiConfig) (env : Env) (vm : Video) (ar : String)
    (defers : List Deferred) (s : State) (hs : NoCommit s.trace)
    (b k ct : String) (err : Option String)
    (h : Event.putObject b k ct err ∈
      (uploadAndCommit cfg env vm "video/mp4" (ratioPrefix ar) defers s).trace) :
    ∃ source, env.randRead = .ok source ∧ b = cfg.s3Bucket ∧ ct = "video/mp4" ∧
      err = env.PutObject cfg.s3Bucket k "video/mp4" ∧
      k = ratioPrefix ar ++ "/" ++
        String.mk (EncodeToString ((List.range 32).map (fun i => source i % 256))) ++ ".mp4" := by
  have hsp : ∀ b k ct e, Event.putObject b k ct e ∉ s.trace := fun b k ct e h => by
    have := (hs _ h).2; simp [Event.isPutObject] at this
  have hrp : ∀ b k ct e, Event.putObject b k ct e ∉ removals defers := fun b k ct e h => by
    obtain ⟨n, hn⟩ := removals_isRemove defers _ h; cases hn
  unfold uploadAndCommit at h
  dsimp only at h
  split at h
  · simp [hsp, hrp] at h
  · rename_i src hsrc
    rw [bucketFileKey_mp4 _ _ (ratioPrefix_values ar) (by simp)] at h
    dsimp only at h
    refine ⟨src, hsrc, ?_⟩
    repeat' split at h
    all_goals simp [hsp, hrp] at h
    all_goals simp_all

/-- The files `stageAndProcess` leaves: never the staged file; a file that
was there before, or, after the nil-dereference panic, the output `ffmpeg`
wrote. -/
theorem stageAndProcess_files (cfg : apiConfig) (env : Env) (vm : Video) (video : FormFile)
    (vt t : String) (s : State) :
    ∀ f ∈ (stageAndProcess cfg env vm video vt t s).files,
      f ≠ t ∧
      (f ∈ s.files ∨
        ((stageAndProcess cfg env vm video vt t s).panic = some .nilDereference ∧
          f = t ++ ".processing" ∧
          (env.ffmpeg t (t ++ ".processing")).wroteOutput = true)) := by
  have hne := append_processing_ne t
  have hne2 := append_processing_ne_empty t
  unfold stageAndProcess
  dsimp only
  split
  · intro f hf
    simp [remaining] at hf
    exact ⟨hf.2, Or.inl hf.1⟩
  · split
    · intro f hf
      simp [remaining] at hf
      exact ⟨hf.2, Or.inl hf.1⟩
    · rcases hff : env.ffmpeg t (t ++ ".processing") with ⟨ferr, wrote⟩
      cases ferr <;> cases wrote <;>
        simp only [processVideoForFastStart, hff, osOpen, log_files, respondAndGoOn_files] <;>
        split <;> intro f hf <;>
        simp [remaining, uploadAndCommit_files, hne, hne2] at hf ⊢ <;>
        first
          | tauto
          | (rename_i hop; simp at hop; done)
          | (rcases hf with rfl | hf <;> simp_all)

theorem NoCommit_not_putObject {tr : List Event} (h : NoCommit tr) (b k ct : String)
    (err : Option String) : Event.putObject b k ct err ∉ tr := by
  intro hin
  have := (h _ hin).2
  simp [Event.isPutObject] at this

theorem stageAndProcess_key (cfg : apiConfig) (env : Env) (vm : Video) (video : FormFile)
    (t : String) (s : State) (hs : NoCommit s.trace) (b k ct : String) (err : Option String)
    (h : Event.putObject b k ct err ∈ (stageAndProcess cfg env vm video "video/mp4" t s).trace) :
    ∃ ar source, env.randRead = .ok source ∧ b = cfg.s3Bucket ∧ ct = "video/mp4" ∧
      err = env.PutObject cfg.s3Bucket k "video/mp4" ∧
      k = ratioPrefix ar ++ "/" ++
        String.mk (EncodeToString ((List.range 32).map (fun i => source i % 256))) ++ ".mp4" := by
  unfold stageAndProcess at h
  dsimp only at h
  repeat' split at h
  all_goals first
    | (exact ⟨_, uploadAndCommit_key cfg env vm _ _ _
        (by simp [NoCommit_append, NoCommit_cons, NoCommit_nil, NoCommit_errorResponse, hs,
              Event.isUpdateVideo, Event.isPutObject]) b k ct err h⟩)
    | (exact absurd h (NoCommit_not_putObject
        (by simp [NoCommit_append, NoCommit_cons, NoCommit_nil, NoCommit_removals,
              NoCommit_errorResponse, hs, Event.isUpdateVideo, Event.isPutObject]) b k ct err))

theorem stageAndProcess_probe_error (cfg : apiConfig) (env : Env) (vm : Video) (video : FormFile)
    (vt t : String) (s : State) (ar e : String)
    (hcopy : env.ioCopy t video.content = none)
    (hprobe : getVideoAspectRatio env t = .ret (ar, some e)) :
    ∃ rest, (stageAndProcess cfg env vm video vt t s).trace
      = s.trace ++ [.ioCopy t, .ffprobe t, .respond 500 none, .ffmpeg t (t ++ ".processing")]
          ++ rest := by
  unfold stageAndProcess
  simp only [hcopy, hprobe]
  split
  · simp only [leave_trace, log_trace, respondAndGoOn_trace, errorResponse, List.append_assoc,
      List.singleton_append, List.cons_append, List.nil_append]
    exact ⟨_, rfl⟩
  · obtain ⟨tail, htail⟩ := uploadAndCommit_extends cfg env vm vt (ratioPrefix ar)
      (.fileClose (processVideoForFastStart env t
          ((respondAndGoOn ((s.log (.ioCopy t)).log (.ffprobe t)) (some e)).log
            (.ffmpeg t (t ++ ".processing"))).files).1.1 ::
        .osRemove (processVideoForFastStart env t
          ((respondAndGoOn ((s.log (.ioCopy t)).log (.ffprobe t)) (some e)).log
            (.ffmpeg t (t ++ ".processing"))).files).1.1 ::
        [.fileClose t, .osRemove t, .videoClose]) _
    rw [htail]
    simp only [leave_trace, log_trace, respondAndGoOn_trace, errorResponse, List.append_assoc,
      List.singleton_append, List.cons_append, List.nil_append]
    exact ⟨_, rfl⟩

/-! ## Theorems -/

/-- C10: the constant `maxVideoSize` is `10 << 30 = 10737418240`, ten times
the `2^30 = 1073741824` bytes (1 GB) its comment states. -/
theorem maxVideoSize_is_ten_gigabytes :
    maxVideoSize = 10737418240 ∧ maxVideoSize = 10 * 2 ^ 30 ∧ maxVideoSize ≠ 2 ^ 30 := by
  decide

/-- C5: the orientation prefix is a total function of the aspect-ratio
string: `landscape` exactly for `16:9`, `portrait` exactly for `9:16`, and
`other` for every other string, compared verbatim. -/
theorem ratioPrefix_exact_match (s : String) :
    (ratioPrefix s = "landscape" ↔ s = "16:9") ∧
    (ratioPrefix s = "portrait" ↔ s = "9:16") ∧
    (ratioPrefix s = "other" ↔ (s ≠ "16:9" ∧ s ≠ "9:16")) ∧
    ratioPrefix "" = "other" ∧ ratioPrefix "4:3" = "other" ∧ ratioPrefix "1:1" = "other" ∧
    ratioPrefix "16:09" = "other" ∧ ratioPrefix " 16:9" = "other" := by
  refine ⟨?_, ?_, ?_, by decide, by decide, by decide, by decide, by decide⟩
  · unfold ratioPrefix
    by_cases h1 : s = "16:9"
    · simp [h1]
    · by_cases h2 : s = "9:16" <;> simp [h1, h2]
  · unfold ratioPrefix
    by_cases h1 : s = "16:9"
    · subst h1; decide
    · by_cases h2 : s = "9:16" <;> simp [h1, h2]
  · unfold ratioPrefix
    by_cases h1 : s = "16:9"
    · subst h1; decide
    · by_cases h2 : s = "9:16"
      · subst h2; decide
      · simp [h1, h2]

/-- C1: when `ffmpeg` exits non-zero after writing part of its output, the
handler ends by a nil-dereference panic and the file `<staged>.processing`
is still on disk when the handler is left, beside the files of line 86: no
`os.Remove` is run on it. -/
theorem remux_failure_leaves_processing_file (cfg : apiConfig) (env : Env) (r : Request)
    (vm : Video) (video : FormFile) (t ar : String) (perr : Option String) (e : String)
    (hst : ReachesStaging cfg env r vm video t)
    (hcopy : env.ioCopy t video.content = none)
    (hprobe : getVideoAspectRatio env t = .ret (ar, perr))
    (hff : env.ffmpeg t (t ++ ".processing") = { err := some e, wroteOutput := true }) :
    (handlerUploadVideo cfg env r).files
      = (t ++ ".processing") ::
          (env.ParseMultipartForm maxVideoSize).filter (fun f => f != t) ∧
    (handlerUploadVideo cfg env r).panic = some .nilDereference ∧
    Event.osRemove (t ++ ".processing") ∉ (handlerUploadVideo cfg env r).trace := by
  have hne := append_processing_ne t
  rw [handlerUploadVideo_staged cfg env r vm video t hst,
    stageAndProcess_remux_error cfg env vm video "video/mp4" t _ ar perr e hcopy hprobe
      (by rw [hff])]
  cases perr <;> simp [hff, hne, errorResponse]

theorem remux_failure_leaves_processing_file_witness :
    (handlerUploadVideo exampleConfig remuxFailsEnv exampleRequest).files
        = ["/tmp/tubely-upload.mp4123.processing"] ∧
    (handlerUploadVideo exampleConfig remuxFailsEnv exampleRequest).panic
        = some .nilDereference ∧
    Event.osRemove "/tmp/tubely-upload.mp4123.processing"
        ∉ (handlerUploadVideo exampleConfig remuxFailsEnv exampleRequest).trace :=
  remux_failure_leaves_processing_file exampleConfig remuxFailsEnv exampleRequest exampleVideo
    { content := [0, 0, 0, 32], ContentType := "video/mp4", Filename := "clip.mp4" }
    "/tmp/tubely-upload.mp4123" "16:9" none "exit status 1"
    ⟨"5e0c0a6d-9d4f-4a5b-8d55-0a1f0c2b3d4e", "token", rfl, rfl, rfl, rfl, rfl, rfl, rfl⟩
    rfl rfl rfl

/-- C2: when `getVideoAspectRatio` returns an error the handler responds 500
and goes on: the next event after the response is the `ffmpeg` run of
`processVideoForFastStart`. -/
theorem probe_error_does_not_abort (cfg : apiConfig) (env : Env) (r : Request)
    (vm : Video) (video : FormFile) (t ar e : String)
    (hst : ReachesStaging cfg env r vm video t)
    (hcopy : env.ioCopy t video.content = none)
    (hprobe : getVideoAspectRatio env t = .ret (ar, some e)) :
    ∃ rest, (handlerUploadVideo cfg env r).trace
      = [.createTemp t, .ioCopy t, .ffprobe t, .respond 500 none,
          .ffmpeg t (t ++ ".processing")] ++ rest := by
  rw [handlerUploadVideo_staged cfg env r vm video t hst]
  obtain ⟨rest, h⟩ := stageAndProcess_probe_error cfg env vm video "video/mp4" t
    { trace := [.createTemp t], files := t :: env.ParseMultipartForm maxVideoSize }
    ar e hcopy hprobe
  exact ⟨rest, by rw [h]; rfl⟩

theorem probe_error_does_not_abort_witness :
    (∃ rest, (handlerUploadVideo exampleConfig probeFailsEnv exampleRequest).trace
      = [.createTemp "/tmp/tubely-upload.mp4123", .ioCopy "/tmp/tubely-upload.mp4123",
          .ffprobe "/tmp/tubely-upload.mp4123", .respond 500 none,
          .ffmpeg "/tmp/tubely-upload.mp4123" ("/tmp/tubely-upload.mp4123" ++ ".processing")]
          ++ rest) ∧
    handlerUploadVideo exampleConfig probeFailsEnv exampleRequest =
      { trace :=
          [.createTemp "/tmp/tubely-upload.mp4123", .ioCopy "/tmp/tubely-upload.mp4123",
            .ffprobe "/tmp/tubely-upload.mp4123", .respond 500 none,
            .ffmpeg "/tmp/tubely-upload.mp4123" "/tmp/tubely-upload.mp4123.processing",
            .osOpen "/tmp/tubely-upload.mp4123.processing" none, .randRead,
            .putObject "tubely-bucket" "other/AAECAwQFBgcICQoLDA0ODxAREhMUFRYXGBkaGxwdHh8.mp4"
              "video/mp4" none,
            .updateVideo { exampleVideo with
              VideoURL := some
                "https://d111.cloudfront.net/other/AAECAwQFBgcICQoLDA0ODxAREhMUFRYXGBkaGxwdHh8.mp4" }
              none,
            .respond 200 (some { exampleVideo with
              VideoURL := some
                "https://d111.cloudfront.net/other/AAECAwQFBgcICQoLDA0ODxAREhMUFRYXGBkaGxwdHh8.mp4" }),
            .osRemove "/tmp/tubely-upload.mp4123.processing",
            .osRemove "/tmp/tubely-upload.mp4123"]
        files := []
        panic := none } :=
  ⟨probe_error_does_not_abort exampleConfig probeFailsEnv exampleRequest exampleVideo
    { content := [0, 0, 0, 32], ContentType := "video/mp4", Filename := "clip.mp4" }
    "/tmp/tubely-upload.mp4123" "" "exit status 1"
    ⟨"5e0c0a6d-9d4f-4a5b-8d55-0a1f0c2b3d4e", "token", rfl, rfl, rfl, rfl, rfl, rfl, rfl⟩
    rfl rfl, by decide⟩

/-- C3: when the probe output decodes to a `MediaInfo` with no stream,
`getVideoAspectRatio` returns no error: it indexes element 0 of the empty
list and panics with index out of range. -/
theorem getVideoAspectRatio_empty_streams_panics (env : Env) (filePath buf : String)
    (hrun : env.ffprobe filePath = .ok buf)
    (hdec : env.jsonDecode buf = .ok { StreamsStream := [] }) :
    getVideoAspectRatio env filePath = .panic (.indexOutOfRange 0 0) := by
  simp [getVideoAspectRatio, unmarshalJSON, hrun, hdec]

theorem getVideoAspectRatio_empty_streams_panics_witness :
    getVideoAspectRatio noStreamEnv "/tmp/tubely-upload.mp4123"
        = .panic (.indexOutOfRange 0 0) ∧
    handlerUploadVideo exampleConfig noStreamEnv exampleRequest =
      { trace :=
          [.createTemp "/tmp/tubely-upload.mp4123", .ioCopy "/tmp/tubely-upload.mp4123",
            .ffprobe "/tmp/tubely-upload.mp4123", .osRemove "/tmp/tubely-upload.mp4123"]
        files := []
        panic := some (.indexOutOfRange 0 0) } :=
  ⟨getVideoAspectRatio_empty_streams_panics noStreamEnv "/tmp/tubely-upload.mp4123"
    "\x7b\"streams\": []\x7d" rfl rfl, by decide⟩

/-- C4: when `processVideoForFastStart` returns an error the handler calls
neither `PutObject` nor `UpdateVideo`, but it does not return either: it
responds 500, calls `os.Open("")`, responds 500 a second time and panics on
the nil `processedVideo`. -/
theorem remux_error_ends_in_panic (cfg : apiConfig) (env : Env) (r : Request)
    (vm : Video) (video : FormFile) (t ar : String) (perr : Option String) (e : String)
    (hst : ReachesStaging cfg env r vm video t)
    (hcopy : env.ioCopy t video.content = none)
    (hprobe : getVideoAspectRatio env t = .ret (ar, perr))
    (hff : (env.ffmpeg t (t ++ ".processing")).err = some e) :
    processVideoForFastStart env t [t] =
      (("", some e), if (env.ffmpeg t (t ++ ".processing")).wroteOutput
          then [t ++ ".processing", t] else [t]) ∧
    (handlerUploadVideo cfg env r).panic = some .nilDereference ∧
    (handlerUploadVideo cfg env r).trace =
      [.createTemp t, .ioCopy t, .ffprobe t] ++ errorResponse perr ++
        [.ffmpeg t (t ++ ".processing"), .respond 500 none,
          .osOpen "" (some "no such file or directory"), .respond 500 none, .osRemove t] ∧
    (∀ x ∈ (handlerUploadVideo cfg env r).trace, x.isPutObject = false ∧ x.isUpdateVideo = false) ∧
    2 ≤ (handlerUploadVideo cfg env r).trace.countP Event.isRespond := by
  rw [handlerUploadVideo_staged cfg env r vm video t hst,
    stageAndProcess_remux_error cfg env vm video "video/mp4" t _ ar perr e hcopy hprobe hff]
  refine ⟨by simp [processVideoForFastStart, hff], rfl, by simp, ?_, ?_⟩
  · cases perr <;> simp [errorResponse, Event.isPutObject, Event.isUpdateVideo]
  · cases perr <;> simp [errorResponse, Event.isRespond, List.countP_cons]

theorem remux_error_ends_in_panic_witness :
    processVideoForFastStart remuxFailsEnv "/tmp/tubely-upload.mp4123"
        ["/tmp/tubely-upload.mp4123"] =
      (("", some "exit status 1"),
        if (remuxFailsEnv.ffmpeg "/tmp/tubely-upload.mp4123"
            ("/tmp/tubely-upload.mp4123" ++ ".processing")).wroteOutput
        then ["/tmp/tubely-upload.mp4123" ++ ".processing", "/tmp/tubely-upload.mp4123"]
        else ["/tmp/tubely-upload.mp4123"]) ∧
    (handlerUploadVideo exampleConfig remuxFailsEnv exampleRequest).panic
      = some .nilDereference ∧
    (handlerUploadVideo exampleConfig remuxFailsEnv exampleRequest).trace =
      [.createTemp "/tmp/tubely-upload.mp4123", .ioCopy "/tmp/tubely-upload.mp4123",
        .ffprobe "/tmp/tubely-upload.mp4123"] ++ errorResponse none ++
        [.ffmpeg "/tmp/tubely-upload.mp4123" ("/tmp/tubely-upload.mp4123" ++ ".processing"),
          .respond 500 none, .osOpen "" (some "no such file or directory"), .respond 500 none,
          .osRemove "/tmp/tubely-upload.mp4123"] ∧
    (∀ x ∈ (handlerUploadVideo exampleConfig remuxFailsEnv exampleRequest).trace,
      x.isPutObject = false ∧ x.isUpdateVideo = false) ∧
    2 ≤ (handlerUploadVideo exampleConfig remuxFailsEnv exampleRequest).trace.countP
      Event.isRespond :=
  remux_error_ends_in_panic exampleConfig remuxFailsEnv exampleRequest exampleVideo
    { content := [0, 0, 0, 32], ContentType := "video/mp4", Filename := "clip.mp4" }
    "/tmp/tubely-upload.mp4123" "16:9" none "exit status 1"
    ⟨"5e0c0a6d-9d4f-4a5b-8d55-0a1f0c2b3d4e", "token", rfl, rfl, rfl, rfl, rfl, rfl, rfl⟩
    rfl rfl rfl

/-- C6 (amended): an upload whose part's media type does not parse to
`video/mp4` is answered with one 400 response; the staged file is not
created and neither `PutObject` nor `UpdateVideo` is called, and the only
temporary files on disk when the handler returns are those that
`r.ParseMultipartForm(maxVideoSize)` at line 86 wrote for the parts of the
body that did not fit in memory.  In every run the staged file, a
`PutObject` call or an `UpdateVideo` call occurs only when the parsed media
type is `video/mp4`. -/
theorem other_media_types_rejected (cfg : apiConfig) (env : Env) (r : Request) :
    (∀ videoID token vm video,
      env.uuidParse r.videoID = .ok videoID →
      env.GetBearerToken r.Authorization = .ok token →
      env.ValidateJWT token cfg.jwtSecret = .ok vm.UserID →
      env.GetVideo videoID = .ok vm →
      r.formFile = .ok video →
      env.ParseMediaType video.ContentType ≠ .ok "video/mp4" →
      handlerUploadVideo cfg env r
        = { trace := [.respond 400 none], files := env.ParseMultipartForm maxVideoSize,
            panic := none }) ∧
    (∀ x ∈ (handlerUploadVideo cfg env r).trace,
      x.isCreateTemp = true ∨ x.isPutObject = true ∨ x.isUpdateVideo = true →
      ∃ video, r.formFile = .ok video ∧
        env.ParseMediaType video.ContentType = .ok "video/mp4") := by
  constructor
  · intro videoID token vm video h1 h2 h3 h4 h5 h6
    unfold handlerUploadVideo
    simp only [h1, h2, h3, h4, h5]
    cases h : env.ParseMediaType video.ContentType with
    | error e => simp [leave, respondWithError, State.log, Deferred.run]
    | ok vt =>
        have : vt ≠ "video/mp4" := by rintro rfl; exact h6 h
        simp [leave, respondWithError, State.log, Deferred.run, this]
  · intro x hx hev
    rcases handlerUploadVideo_cases cfg env r with ⟨code, _, hrun⟩ | ⟨vm, video, t, hst, _⟩
    · rw [hrun] at hx
      simp only [List.mem_singleton] at hx
      subst hx
      simp [Event.isCreateTemp, Event.isPutObject, Event.isUpdateVideo] at hev
    · obtain ⟨_, _, _, _, _, _, h5, h6, _⟩ := hst
      exact ⟨video, h5, h6⟩

theorem other_media_types_rejected_witness :
    handlerUploadVideo exampleConfig happyEnv pngRequest
        = { trace := [.respond 400 none], files := [], panic := none } ∧
    handlerUploadVideo exampleConfig spillEnv pngRequest
        = { trace := [.respond 400 none], files := spillEnv.ParseMultipartForm maxVideoSize,
            panic := none } :=
  ⟨(other_media_types_rejected exampleConfig happyEnv pngRequest).1
      "5e0c0a6d-9d4f-4a5b-8d55-0a1f0c2b3d4e" "token" exampleVideo
      { content := [137, 80, 78, 71], ContentType := "image/png", Filename := "a.png" }
      rfl rfl rfl rfl rfl (fun h => absurd (Except.ok.inj h) (by decide)),
    (other_media_types_rejected exampleConfig spillEnv pngRequest).1
      "5e0c0a6d-9d4f-4a5b-8d55-0a1f0c2b3d4e" "token" exampleVideo
      { content := [137, 80, 78, 71], ContentType := "image/png", Filename := "a.png" }
      rfl rfl rfl rfl rfl (fun h => absurd (Except.ok.inj h) (by decide))⟩

/-- C6 as first stated fails: an `image/png` upload whose body holds a file
part beyond `maxVideoSize` is answered 400, and the `multipart-*` file that
line 86 wrote is on disk when the handler returns. -/
theorem other_media_types_rejected_counterexample :
    (∃ video, pngRequest.formFile = .ok video ∧
      spillEnv.ParseMediaType video.ContentType = .ok "image/png") ∧
    handlerUploadVideo exampleConfig spillEnv pngRequest
        = { trace := [.respond 400 none], files := ["/tmp/multipart-1046530816"],
            panic := none } ∧
    (handlerUploadVideo exampleConfig spillEnv pngRequest).files ≠ [] :=
  ⟨⟨_, rfl, rfl⟩, by decide, by decide⟩

/-- C7 (amended): when the fetched record's owner differs from the
authenticated user the handler answers with one 401 response; the staged
file is not created and neither `PutObject` nor `UpdateVideo` is called, so
the record is unchanged, and the only temporary files on disk when the
handler returns are those that `r.ParseMultipartForm(maxVideoSize)` at line
86 wrote, before the check, for the parts of the body that did not fit in
memory.  In every run the staged file, a `PutObject` call or an
`UpdateVideo` call occurs only after the ownership check has passed. -/
theorem other_owner_rejected (cfg : apiConfig) (env : Env) (r : Request) :
    (∀ videoID token userID vm,
      env.uuidParse r.videoID = .ok videoID →
      env.GetBearerToken r.Authorization = .ok token →
      env.ValidateJWT token cfg.jwtSecret = .ok userID →
      env.GetVideo videoID = .ok vm →
      vm.UserID ≠ userID →
      handlerUploadVideo cfg env r
        = { trace := [.respond 401 none], files := env.ParseMultipartForm maxVideoSize,
            panic := none }) ∧
    (∀ x ∈ (handlerUploadVideo cfg env r).trace,
      x.isCreateTemp = true ∨ x.isPutObject = true ∨ x.isUpdateVideo = true →
      ∃ videoID token vm,
        env.uuidParse r.videoID = .ok videoID ∧
        env.GetBearerToken r.Authorization = .ok token ∧
        env.GetVideo videoID = .ok vm ∧
        env.ValidateJWT token cfg.jwtSecret = .ok vm.UserID) := by
  constructor
  · intro videoID token userID vm h1 h2 h3 h4 h5
    unfold handlerUploadVideo
    simp [h1, h2, h3, h4, h5, leave, respondWithError, State.log]
  · intro x hx hev
    rcases handlerUploadVideo_cases cfg env r with ⟨code, _, hrun⟩ | ⟨vm, video, t, hst, _⟩
    · rw [hrun] at hx
      simp only [List.mem_singleton] at hx
      subst hx
      simp [Event.isCreateTemp, Event.isPutObject, Event.isUpdateVideo] at hev
    · obtain ⟨videoID, token, h1, h2, h3, h4, _, _, _⟩ := hst
      exact ⟨videoID, token, vm, h1, h2, h4, h3⟩

theorem other_owner_rejected_witness :
    handlerUploadVideo exampleConfig otherOwnerEnv exampleRequest
        = { trace := [.respond 401 none], files := [], panic := none } ∧
    handlerUploadVideo exampleConfig spillOtherOwnerEnv exampleRequest
        = { trace := [.respond 401 none],
            files := spillOtherOwnerEnv.ParseMultipartForm maxVideoSize, panic := none } :=
  ⟨(other_owner_rejected exampleConfig otherOwnerEnv exampleRequest).1
      "5e0c0a6d-9d4f-4a5b-8d55-0a1f0c2b3d4e" "token" "user-1"
      { exampleVideo with UserID := "user-2" } rfl rfl rfl rfl (by decide),
    (other_owner_rejected exampleConfig spillOtherOwnerEnv exampleRequest).1
      "5e0c0a6d-9d4f-4a5b-8d55-0a1f0c2b3d4e" "token" "user-1"
      { exampleVideo with UserID := "user-2" } rfl rfl rfl rfl (by decide)⟩

/-- C7 as first stated fails: for a record of another user and a body that
holds a file part beyond `maxVideoSize`, the handler answers 401, and the
`multipart-*` file that line 86 wrote before the ownership check is on disk
when the handler returns. -/
theorem other_owner_rejected_counterexample :
    (∃ vm, spillOtherOwnerEnv.GetVideo "5e0c0a6d-9d4f-4a5b-8d55-0a1f0c2b3d4e" = .ok vm ∧
      spillOtherOwnerEnv.ValidateJWT "token" "secret" = .ok "user-1" ∧
      vm.UserID ≠ "user-1") ∧
    handlerUploadVideo exampleConfig spillOtherOwnerEnv exampleRequest
        = { trace := [.respond 401 none], files := ["/tmp/multipart-1046530816"],
            panic := none } ∧
    (handlerUploadVideo exampleConfig spillOtherOwnerEnv exampleRequest).files ≠ [] :=
  ⟨⟨_, rfl, rfl, by decide⟩, by decide, by decide⟩

/-- C8: in every run `UpdateVideo` is called at most once, and only after a
`PutObject` that returned no error; when `PutObject` returns an error the
handler responds 500 and returns with no `UpdateVideo` call. -/
theorem updateVideo_only_after_putObject (cfg : apiConfig) (env : Env) (r : Request) :
    (handlerUploadVideo cfg env r).trace.countP Event.isUpdateVideo ≤ 1 ∧
    (∀ v e, Event.updateVideo v e ∈ (handlerUploadVideo cfg env r).trace →
      ∃ b k ct, Event.putObject b k ct none ∈
        (handlerUploadVideo cfg env r).trace.takeWhile (fun x => !x.isUpdateVideo)) ∧
    (∀ b k ct err, Event.putObject b k ct (some err) ∈ (handlerUploadVideo cfg env r).trace →
      (∀ v e, Event.updateVideo v e ∉ (handlerUploadVideo cfg env r).trace) ∧
      (handlerUploadVideo cfg env r).panic = none ∧
      Event.respond 500 none ∈
        (handlerUploadVideo cfg env r).trace.dropWhile (fun x => !x.isPutObject)) :=
  handlerUploadVideo_order cfg env r

theorem updateVideo_only_after_putObject_witness :
    (∃ b k ct, Event.putObject b k ct none ∈
      (handlerUploadVideo exampleConfig happyEnv exampleRequest).trace.takeWhile
        (fun x => !x.isUpdateVideo)) ∧
    ((∀ v e, Event.updateVideo v e ∉
        (handlerUploadVideo exampleConfig putFailsEnv exampleRequest).trace) ∧
      (handlerUploadVideo exampleConfig putFailsEnv exampleRequest).panic = none ∧
      Event.respond 500 none ∈
        (handlerUploadVideo exampleConfig putFailsEnv exampleRequest).trace.dropWhile
          (fun x => !x.isPutObject)) :=
  ⟨(updateVideo_only_after_putObject exampleConfig happyEnv exampleRequest).2.1
      { exampleVideo with
        VideoURL := some
          "https://d111.cloudfront.net/landscape/AAECAwQFBgcICQoLDA0ODxAREhMUFRYXGBkaGxwdHh8.mp4" }
      none (by decide),
    (updateVideo_only_after_putObject exampleConfig putFailsEnv exampleRequest).2.2
      "tubely-bucket" "landscape/AAECAwQFBgcICQoLDA0ODxAREhMUFRYXGBkaGxwdHh8.mp4" "video/mp4"
      "AccessDenied" (by decide)⟩

/-- C9: for 32 random bytes `b` and an orientation prefix `o`, the key
computed for media type `video/mp4` is `o ++ "/" ++ enc b ++ ".mp4"`, where
`enc b` is 43 characters of `[A-Za-z0-9_-]`; `filepath.Join` leaves the
string unchanged, it holds exactly one `/`, and the run of the handler does
not depend on the uploaded file name. -/
theorem bucketFileKey_shape (o : String) (b : List Nat)
    (ho : o = "landscape" ∨ o = "portrait" ∨ o = "other") (hb : b.length = 32) :
    bucketFileKey o (String.mk (EncodeToString b)) "video/mp4"
        = .ret (o ++ "/" ++ String.mk (EncodeToString b) ++ ".mp4") ∧
    (EncodeToString b).length = 43 ∧
    (∀ c ∈ EncodeToString b, c.isAlphanum = true ∨ c = '-' ∨ c = '_') ∧
    (o ++ "/" ++ String.mk (EncodeToString b) ++ ".mp4").toList.count '/' = 1 ∧
    (∀ (cfg : apiConfig) (env : Env) (r : Request) (video : FormFile) (name : String),
      r.formFile = .ok video →
      handlerUploadVideo cfg env { r with formFile := .ok { video with Filename := name } }
        = handlerUploadVideo cfg env r) := by
  refine ⟨bucketFileKey_mp4 o b ho hb, by rw [EncodeToString_length, hb], ?_,
    key_one_separator o b ho, ?_⟩
  · exact fun c hc => (encodeURL_chars c (EncodeToString_mem b c hc)).2.2
  · intro cfg env r video name h
    unfold handlerUploadVideo
    simp only [h]
    rfl

theorem bucketFileKey_shape_witness :
    (bucketFileKey "landscape" (String.mk (EncodeToString (List.range 32))) "video/mp4"
        = .ret ("landscape" ++ "/" ++ String.mk (EncodeToString (List.range 32)) ++ ".mp4") ∧
    (EncodeToString (List.range 32)).length = 43 ∧
    (∀ c ∈ EncodeToString (List.range 32), c.isAlphanum = true ∨ c = '-' ∨ c = '_') ∧
    ("landscape" ++ "/" ++ String.mk (EncodeToString (List.range 32)) ++ ".mp4").toList.count '/'
        = 1 ∧
    (∀ (cfg : apiConfig) (env : Env) (r : Request) (video : FormFile) (name : String),
      r.formFile = .ok video →
      handlerUploadVideo cfg env { r with formFile := .ok { video with Filename := name } }
        = handlerUploadVideo cfg env r)) ∧
    String.mk (EncodeToString (List.range 32))
        = "AAECAwQFBgcICQoLDA0ODxAREhMUFRYXGBkaGxwdHh8" ∧
    bucketFileKey "landscape" "AAECAwQFBgcICQoLDA0ODxAREhMUFRYXGBkaGxwdHh8" "video/mp4"
        = .ret "landscape/AAECAwQFBgcICQoLDA0ODxAREhMUFRYXGBkaGxwdHh8.mp4" :=
  ⟨bucketFileKey_shape "landscape" (List.range 32) (Or.inl rfl) (by decide), by decide, rfl⟩

/-- Extra fuel does not change the result of `Clean`'s loop: with
`path.length` iterations the loop has read the whole path. -/
theorem cleanLoop_fuel_enough (rooted : Bool) (fuel : Nat) :
    ∀ (more : Nat) (path out : List Char) (dotdot : Nat), path.length ≤ fuel →
      cleanLoop rooted (fuel + more) path out dotdot = cleanLoop rooted fuel path out dotdot := by
  induction fuel with
  | zero =>
      intro more path out dotdot h
      have : path = [] := List.length_eq_zero.mp (Nat.le_zero.mp h)
      subst this
      cases more <;> simp [cleanLoop]
  | succ n ih =>
      intro more path out dotdot h
      have e : n + 1 + more = (n + more) + 1 := by omega
      rw [e]
      cases path with
      | nil => simp [cleanLoop]
      | cons c rest =>
          have hrest : rest.length ≤ n := by simpa using h
          have htail : rest.tail.length ≤ n := by
            have := List.length_tail rest
            omega
          by_cases hc : c = '/'
          · simp only [cleanLoop, hc, if_true]
            exact ih more rest out dotdot hrest
          · have hdrop : ((c :: rest).dropWhile (fun x => x != '/')).length ≤ n := by
              have h1 : (c :: rest).dropWhile (fun x => x != '/')
                  = rest.dropWhile (fun x => x != '/') := by
                simp [List.dropWhile_cons, hc]
              rw [h1]
              exact le_trans (List.dropWhile_sublist _).length_le hrest
            simp only [cleanLoop]
            rw [ih more rest out dotdot hrest, ih more rest.tail _ dotdot htail,
              ih more rest.tail _ _ htail, ih more rest.tail out dotdot htail,
              ih more _ _ dotdot hdrop]

theorem cleanLoop_fuel_enough_witness :
    cleanLoop false (6 + 7) "a/../b".toList [] 0 = cleanLoop false 6 "a/../b".toList [] 0 ∧
    String.mk (Clean "a/../b".toList) = "b" :=
  ⟨cleanLoop_fuel_enough false 6 7 "a/../b".toList [] 0 (by decide), by decide⟩

/-- Every temporary file on disk when the handler is left is a file that
line 86 wrote, except after the nil-dereference panic of line 181 that
follows an `ffmpeg` run which wrote its output file: then
`<staged>.processing` is left too. -/
theorem temp_files_removed_unless_nil_panic (cfg : apiConfig) (env : Env) (r : Request)
    (f : String) (hf : f ∈ (handlerUploadVideo cfg env r).files) :
    f ∈ env.ParseMultipartForm maxVideoSize ∨
    ((handlerUploadVideo cfg env r).panic = some .nilDereference ∧
      ∃ t, env.CreateTemp = .ok t ∧ f = t ++ ".processing" ∧
        (env.ffmpeg t (t ++ ".processing")).wroteOutput = true) := by
  rcases handlerUploadVideo_cases cfg env r with ⟨code, _, hrun⟩ | ⟨vm, video, t, hst, hrun⟩
  · left
    rw [hrun] at hf
    exact hf
  · rw [hrun] at hf ⊢
    obtain ⟨hne, h | ⟨h1, h2, h3⟩⟩ := stageAndProcess_files cfg env vm video "video/mp4" t _ f hf
    · left
      simp only [List.mem_cons] at h
      rcases h with h | h
      · exact absurd h hne
      · exact h
    · obtain ⟨_, _, _, _, _, _, _, _, h7⟩ := hst
      exact Or.inr ⟨h1, t, h7, h2, h3⟩

theorem temp_files_removed_unless_nil_panic_witness :
    "/tmp/tubely-upload.mp4123.processing" ∈ remuxFailsEnv.ParseMultipartForm maxVideoSize ∨
    ((handlerUploadVideo exampleConfig remuxFailsEnv exampleRequest).panic
        = some .nilDereference ∧
      ∃ t, remuxFailsEnv.CreateTemp = .ok t ∧
        "/tmp/tubely-upload.mp4123.processing" = t ++ ".processing" ∧
        (remuxFailsEnv.ffmpeg t (t ++ ".processing")).wroteOutput = true) :=
  temp_files_removed_unless_nil_panic exampleConfig remuxFailsEnv exampleRequest
    "/tmp/tubely-upload.mp4123.processing" (by decide)

/-- Every key the handler passes to `PutObject` is
`<orientation>/<id>.mp4`, with the orientation prefix of some aspect ratio
and the encoding of the 32 bytes read from the random source; the content
type is `video/mp4` and the bucket is the configured one. -/
theorem putObject_key_shape (cfg : apiConfig) (env : Env) (r : Request)
    (b k ct : String) (err : Option String)
    (h : Event.putObject b k ct err ∈ (handlerUploadVideo cfg env r).trace) :
    ∃ ar source, env.randRead = .ok source ∧ b = cfg.s3Bucket ∧ ct = "video/mp4" ∧
      err = env.PutObject cfg.s3Bucket k "video/mp4" ∧
      k = ratioPrefix ar ++ "/" ++
        String.mk (EncodeToString ((List.range 32).map (fun i => source i % 256))) ++ ".mp4" := by
  rcases handlerUploadVideo_cases cfg env r with ⟨code, _, hrun⟩ | ⟨vm, video, t, hst, hrun⟩
  · rw [hrun] at h
    simp at h
  · rw [hrun] at h
    exact stageAndProcess_key cfg env vm video t _
      (by simp [NoCommit_cons, NoCommit_nil, Event.isUpdateVideo, Event.isPutObject])
      b k ct err h

theorem putObject_key_shape_witness :
    ∃ ar source, happyEnv.randRead = .ok source ∧ "tubely-bucket" = exampleConfig.s3Bucket ∧
      "video/mp4" = "video/mp4" ∧
      none = happyEnv.PutObject exampleConfig.s3Bucket
        "landscape/AAECAwQFBgcICQoLDA0ODxAREhMUFRYXGBkaGxwdHh8.mp4" "video/mp4" ∧
      "landscape/AAECAwQFBgcICQoLDA0ODxAREhMUFRYXGBkaGxwdHh8.mp4" = ratioPrefix ar ++ "/" ++
        String.mk (EncodeToString ((List.range 32).map (fun i => source i % 256))) ++ ".mp4" :=
  putObject_key_shape exampleConfig happyEnv exampleRequest "tubely-bucket"
    "landscape/AAECAwQFBgcICQoLDA0ODxAREhMUFRYXGBkaGxwdHh8.mp4" "video/mp4" none (by decide)

/-- The end-to-end run of a 16:9 upload by the record's owner: the object is
stored under `landscape/`, the record's `VideoURL` is set to the CloudFront
URL of that key, the response is 200 and both temporary files are removed. -/
theorem landscape_upload_end_to_end :
    handlerUploadVideo exampleConfig happyEnv exampleRequest =
      { trace :=
          [.createTemp "/tmp/tubely-upload.mp4123", .ioCopy "/tmp/tubely-upload.mp4123",
            .ffprobe "/tmp/tubely-upload.mp4123",
            .ffmpeg "/tmp/tubely-upload.mp4123" "/tmp/tubely-upload.mp4123.processing",
            .osOpen "/tmp/tubely-upload.mp4123.processing" none, .randRead,
            .putObject "tubely-bucket"
              "landscape/AAECAwQFBgcICQoLDA0ODxAREhMUFRYXGBkaGxwdHh8.mp4" "video/mp4" none,
            .updateVideo
              { exampleVideo with
                VideoURL := some
                  "https://d111.cloudfront.net/landscape/AAECAwQFBgcICQoLDA0ODxAREhMUFRYXGBkaGxwdHh8.mp4" }
              none,
            .respond 200 (some
              { exampleVideo with
                VideoURL := some
                  "https://d111.cloudfront.net/landscape/AAECAwQFBgcICQoLDA0ODxAREhMUFRYXGBkaGxwdHh8.mp4" }),
            .osRemove "/tmp/tubely-upload.mp4123.processing",
            .osRemove "/tmp/tubely-upload.mp4123"]
        files := []
        panic := none } := by
  decide

/-- When `PutObject` returns an error the handler returns normally and the
record is not updated; the staged and the processed file are removed: every
temporary file still on disk is a file that line 86 wrote. -/
theorem putObject_failure_cleans_up (cfg : apiConfig) (env : Env) (r : Request)
    (b k ct e : String)
    (h : Event.putObject b k ct (some e) ∈ (handlerUploadVideo cfg env r).trace) :
    (∀ f ∈ (handlerUploadVideo cfg env r).files, f ∈ env.ParseMultipartForm maxVideoSize) ∧
    (handlerUploadVideo cfg env r).panic = none ∧
    ∀ x ∈ (handlerUploadVideo cfg env r).trace, x.isUpdateVideo = false := by
  have hord := (handlerUploadVideo_order cfg env r).2.2 b k ct e h
  refine ⟨?_, hord.2.1, ?_⟩
  · intro f hf
    rcases handlerUploadVideo_cases cfg env r with ⟨code, _, hrun⟩ | ⟨vm, video, t, hst, hrun⟩
    · rw [hrun] at hf
      exact hf
    · have hp := hord.2.1
      rw [hrun] at hp hf
      obtain ⟨hne, h1 | ⟨h1, _, _⟩⟩ :=
        stageAndProcess_files cfg env vm video "video/mp4" t _ f hf
      · simp only [List.mem_cons] at h1
        rcases h1 with h1 | h1
        · exact absurd h1 hne
        · exact h1
      · rw [hp] at h1; cases h1
  · intro x hx
    cases x <;> simp [Event.isUpdateVideo]
    exact hord.1 _ _ hx

theorem putObject_failure_cleans_up_witness :
    ((∀ f ∈ (handlerUploadVideo exampleConfig putFailsEnv exampleRequest).files,
        f ∈ putFailsEnv.ParseMultipartForm maxVideoSize) ∧
      (handlerUploadVideo exampleConfig putFailsEnv exampleRequest).panic = none ∧
      ∀ x ∈ (handlerUploadVideo exampleConfig putFailsEnv exampleRequest).trace,
        x.isUpdateVideo = false) ∧
    (handlerUploadVideo exampleConfig putFailsEnv exampleRequest).files = [] :=
  ⟨putObject_failure_cleans_up exampleConfig putFailsEnv exampleRequest "tubely-bucket"
    "landscape/AAECAwQFBgcICQoLDA0ODxAREhMUFRYXGBkaGxwdHh8.mp4" "video/mp4" "AccessDenied"
    (by decide), by decide⟩

end Tubely
